import Mathlib

/-!
# Mapkeeper suggestion engine: a shallow embedding

This file embeds the suggestion engine of the Mapkeeper repository
(`functions/mapkeeper.js` and the browser-side `Mapkeeper` class) in Lean 4 and
proves or refutes the frozen specification claims about it.

Modelling conventions:
* JS strings are lists of characters (`Str`); string literals are written via
  `String.toList` and character codes via `Char.toNat` (faithful on the ASCII
  inputs used throughout).
* JS `Map` objects are association lists with unique keys; `Map.set` is
  modelled as erase-then-cons, `Map.delete` as erase.
* JS numbers used for scores are modelled as rationals; the bitwise 32-bit
  hash arithmetic is modelled on `Int` with explicit two's-complement wrap.
* The single outbound `fetch` to the OpenAI endpoint is an external effect; its
  outcome (HTTP status / reply content / parse result of `JSON.parse`) is an
  oracle parameter to the handler, and a returned `Bool` flag records whether
  the AI client was invoked on the run.
* `Date.now()` is an explicit `now : Int` parameter (milliseconds).
-/

namespace Mapkeeper

set_option maxRecDepth 100000

/-- JS strings, modelled as lists of characters. -/
abbrev Str := List Char

/-- Normalized quote record (the fields the suggestion engine reads). -/
structure Quote where
  id : Str
  text : Str
  author : Option Str
  book_title : Option Str
deriving DecidableEq, Repr

/-- Structured connection explanation. -/
structure Rationale where
  title : Str
  rationale : Str
  labels : List Str
deriving DecidableEq, Repr

/-! ## Association-list primitives (JS `Map` semantics) -/

/-- `Map.get`: the value bound to `k`, if any. -/
def alookup {α : Type} (l : List (Str × α)) (k : Str) : Option α :=
  match l with
  | [] => none
  | p :: rest => if p.1 = k then some p.2 else alookup rest k

/-- `Map.delete`: remove every binding of `k`. -/
def aerase {α : Type} (l : List (Str × α)) (k : Str) : List (Str × α) :=
  match l with
  | [] => []
  | p :: rest => if p.1 = k then aerase rest k else p :: aerase rest k

/-- `Map.set`: bind `k` to `v`, overwriting any previous binding. -/
def aset {α : Type} (l : List (Str × α)) (k : Str) (v : α) : List (Str × α) :=
  (k, v) :: aerase l k

theorem alookup_aerase {α : Type} (l : List (Str × α)) (k k' : Str) (h : k' ≠ k) :
    alookup (aerase l k) k' = alookup l k' := by
  induction l with
  | nil => rfl
  | cons p rest ih =>
    by_cases hp : p.1 = k
    · simp only [aerase, if_pos hp, alookup, ih]
      rw [if_neg (by rw [hp]; exact fun e => h e.symm)]
    · simp only [aerase, if_neg hp, alookup, ih]

theorem alookup_aerase_self {α : Type} (l : List (Str × α)) (k : Str) :
    alookup (aerase l k) k = none := by
  induction l with
  | nil => rfl
  | cons p rest ih =>
    by_cases hp : p.1 = k
    · simpa [aerase, hp] using ih
    · simpa [aerase, alookup, hp] using ih

theorem alookup_aset_self {α : Type} (l : List (Str × α)) (k : Str) (v : α) :
    alookup (aset l k v) k = some v := by
  simp [aset, alookup]

theorem alookup_aset_ne {α : Type} (l : List (Str × α)) (k k' : Str) (v : α) (h : k' ≠ k) :
    alookup (aset l k v) k' = alookup l k' := by
  have hk : ¬ (k = k') := fun e => h e.symm
  simp only [aset, alookup, if_neg hk]
  exact alookup_aerase l k k' h

/-! ## Configuration constants -/

def RATE_LIMIT_WINDOW : Int := 60 * 1000

def RATE_LIMIT_MAX_REQUESTS : Nat := 30

def CACHE_TTL : Int := 60 * 60 * 1000

/-! ## The rolling hash (`hashString`) -/

/-- Two's-complement wrap to 32 bits, as JS bitwise operators produce. -/
def toInt32 (n : Int) : Int := (n + 2 ^ 31) % 2 ^ 32 - 2 ^ 31

/-- One step of `hash = ((hash << 5) - hash) + charCode; hash = hash & hash`. -/
def hashStep (h : Int) (c : Char) : Int := toInt32 (toInt32 (h * 32) - h + c.toNat)

/-- `hashString`: 32-bit rolling hash of a string, rendered in decimal. -/
def hashString (s : Str) : Str := (toString (s.foldl hashStep 0)).toList

/-- JS `x || d` on an optional string: `undefined` and `''` both fall back. -/
def jsOrDefault (s : Option Str) (d : Str) : Str :=
  match s with
  | none => d
  | some v => if v = [] then d else v

/-! ## Response cache -/

/-- A cache entry: `{ data, expires }`. -/
structure CacheEntry (α : Type) where
  data : α
  expires : Int
deriving DecidableEq, Repr

/-- The response cache, keyed by derived string keys. -/
abbrev Cache (α : Type) := List (Str × CacheEntry α)

/-- `getFromCache`: report the unexpired value, lazily deleting an expired
entry; returns the (possibly shrunk) cache alongside. -/
def getFromCache {α : Type} (c : Cache α) (now : Int) (k : Str) : Option α × Cache α :=
  match alookup c k with
  | none => (none, c)
  | some e => if e.expires < now then (none, aerase c k) else (some e.data, c)

/-- `setCache`: store with a fresh TTL from the moment of write. -/
def setCache {α : Type} (c : Cache α) (now : Int) (k : Str) (v : α) : Cache α :=
  aset c k ⟨v, now + CACHE_TTL⟩

/-- `getCacheKey`: the derived key `type:id:promptHash`. -/
def getCacheKey (ty : Str) (id : Str) (systemPrompt : Option Str) : Str :=
  let promptHash := hashString (jsOrDefault systemPrompt "default".toList)
  ty ++ ':' :: id ++ ':' :: promptHash

/-! ## Rate limiter -/

/-- The rate window: client identity to recorded request timestamps. -/
abbrev RateStore := List (Str × List Int)

/-- The cleanup pass over all identities: keep only timestamps inside the
window, and drop identities left with none. -/
def cleanRate (st : RateStore) (windowStart : Int) : RateStore :=
  (st.map (fun p => (p.1, p.2.filter (fun t => decide (windowStart < t))))).filter
    (fun p => !p.2.isEmpty)

/-- The recorded in-window timestamps of one identity. -/
def ratesOf (st : RateStore) (k : Str) : List Int := (alookup st k).getD []

/-- `checkRateLimit`: purge, then deny without recording at the cap, else
record `now` and allow. -/
def checkRateLimit (st : RateStore) (clientId : Str) (now : Int) : Bool × RateStore :=
  let windowStart := now - RATE_LIMIT_WINDOW
  let cleaned := cleanRate st windowStart
  let clientTimestamps := ratesOf cleaned clientId
  let recentRequests := clientTimestamps.filter (fun t => decide (windowStart < t))
  if RATE_LIMIT_MAX_REQUESTS ≤ recentRequests.length then
    (false, cleaned)
  else
    (true, aset cleaned clientId (recentRequests ++ [now]))

/-- `getClientId`: hash of the caller-supplied system prompt (or a default). -/
def getClientId (systemPrompt : Option Str) : Str :=
  hashString (jsOrDefault systemPrompt "default".toList)

/-! ## AI client oracle and response parsing -/

/-- Abstract result of `JSON.parse` on the model reply: an object exposing the
fields the code reads, or unparseable text. -/
inductive AIContent where
  | jsonObj (title : Option Str) (rationale : Option Str) (labels : Option (List Str))
  | notJson (raw : Str)
deriving DecidableEq, Repr

/-- Outcome of the single outbound request performed by `callOpenAI`. -/
inductive AIOutcome (α : Type) where
  | ok (content : α)
  | httpError (status : Nat)
  | noApiKey
deriving DecidableEq, Repr

/-- `parseSuggestionResponse`: normalize the parsed JSON, or fall back to the
truncated raw text on parse failure. -/
def parseSuggestionResponse (response : AIContent) : Rationale :=
  match response with
  | .jsonObj title rat labels =>
      ⟨jsOrDefault title "Connected Ideas".toList,
       jsOrDefault rat "These quotes share interesting connections.".toList,
       labels.getD ["adjacent".toList]⟩
  | .notJson raw =>
      ⟨"Connected Ideas".toList, raw.take 200 ++ "...".toList, ["adjacent".toList]⟩

/-! ## Serverless suggestion and route handlers -/

/-- Shared mutable state of the serverless module. The single JS `responseCache`
map holds rationales under `suggest:` keys and narration strings under
`route:` keys; it is split here by value type, keys kept verbatim. -/
structure ServerState where
  rateLimitStore : RateStore
  suggestCache : Cache Rationale
  routeCache : Cache Str
deriving Repr

/-- Result of `handleSuggestLogic`: a thrown error or a response body. -/
inductive SuggestOutcome where
  | error (msg : Str)
  | ok (suggestion : Rationale)
deriving DecidableEq, Repr

/-- `handleSuggestLogic`. Returns the outcome, the final shared state, and
whether the AI client was invoked. Prompt construction only feeds the
outbound request and is absorbed by the `ai` oracle. -/
def handleSuggestLogic (ai : AIOutcome AIContent) (now : Int) (st : ServerState)
    (suggestion : Option Quote) (systemPrompt : Option Str) :
    SuggestOutcome × ServerState × Bool :=
  match suggestion with
  | none => (.error "Missing suggestion text".toList, st, false)
  | some sug =>
    if sug.text = [] then (.error "Missing suggestion text".toList, st, false)
    else
      let clientId := getClientId systemPrompt
      let rl := checkRateLimit st.rateLimitStore clientId now
      if rl.1 = false then
        (.error "Rate limit exceeded".toList, ⟨rl.2, st.suggestCache, st.routeCache⟩, false)
      else
        let cacheKey := getCacheKey "suggest".toList sug.id systemPrompt
        let gc := getFromCache st.suggestCache now cacheKey
        match gc.1 with
        | some cached => (.ok cached, ⟨rl.2, gc.2, st.routeCache⟩, false)
        | none =>
          match ai with
          | .noApiKey =>
              (.error "OpenAI API key not configured".toList,
               ⟨rl.2, gc.2, st.routeCache⟩, true)
          | .httpError status =>
              (.error ("OpenAI API error: ".toList ++ (toString status).toList),
               ⟨rl.2, gc.2, st.routeCache⟩, true)
          | .ok content =>
              let parsed := parseSuggestionResponse content
              (.ok parsed,
               ⟨rl.2, setCache gc.2 now cacheKey parsed, st.routeCache⟩, true)

/-- `path.map(q => q.id).join('-')`. -/
def joinDash : List Str → Str
  | [] => []
  | [x] => x
  | x :: y :: ys => x ++ '-' :: joinDash (y :: ys)

/-- `s.split('-')` for a single-character separator. -/
def splitDash : Str → List Str
  | [] => [[]]
  | c :: rest =>
    if c = '-' then [] :: splitDash rest
    else
      match splitDash rest with
      | [] => [[c]]
      | h :: t => (c :: h) :: t

/-- Result of `handleRouteLogic`. -/
inductive RouteOutcome where
  | error (msg : Str)
  | ok (path : List Str) (narration : Str)
deriving DecidableEq, Repr

/-- `handleRouteLogic`: cache key from dash-joined ids, response path from
re-splitting the joined key on dashes. -/
def handleRouteLogic (ai : AIOutcome Str) (now : Int) (st : ServerState)
    (path : List Quote) (systemPrompt : Option Str) : RouteOutcome × ServerState :=
  if path = [] then (.error "Missing or invalid path".toList, st)
  else
    let clientId := getClientId systemPrompt
    let rl := checkRateLimit st.rateLimitStore clientId now
    if rl.1 = false then
      (.error "Rate limit exceeded".toList, ⟨rl.2, st.suggestCache, st.routeCache⟩)
    else
      let pathIds := joinDash (path.map Quote.id)
      let cacheKey := getCacheKey "route".toList pathIds systemPrompt
      let gc := getFromCache st.routeCache now cacheKey
      match gc.1 with
      | some narration => (.ok (splitDash pathIds) narration, ⟨rl.2, st.suggestCache, gc.2⟩)
      | none =>
        match ai with
        | .noApiKey =>
            (.error "OpenAI API key not configured".toList, ⟨rl.2, st.suggestCache, gc.2⟩)
        | .httpError status =>
            (.error ("OpenAI API error: ".toList ++ (toString status).toList),
             ⟨rl.2, st.suggestCache, gc.2⟩)
        | .ok narration =>
            (.ok (splitDash pathIds) narration,
             ⟨rl.2, st.suggestCache, setCache gc.2 now cacheKey narration⟩)

/-! ## Browser-side `Mapkeeper` class -/

/-- State machine behind `splitWs`: `inGap` records whether the scan is inside
a whitespace run (whose opening already emitted the preceding token), `cur`
the reversed characters of the token being read. -/
def splitWsAux : Bool → List Char → Str → List Str
  | _, [], cur => [cur.reverse]
  | inGap, c :: rest, cur =>
    if c.isWhitespace then
      if inGap then splitWsAux true rest cur
      else cur.reverse :: splitWsAux true rest []
    else splitWsAux false rest (c :: cur)

/-- Whitespace tokenization following JS `split(/\s+/)`: the string is cut at
maximal whitespace runs; a leading or trailing run contributes an empty
token. -/
def splitWs (s : Str) : List Str := splitWsAux false s []

/-- `text.toLowerCase().split(/\s+/)`. -/
def wordsOf (s : Str) : List Str := splitWs (s.map Char.toLower)

/-- The precomputed neighbor adjacency, quote id to ordered neighbor ids. -/
abbrev NeighborMap := List (Str × List Str)

/-- `this.neighbors[id] || []`. -/
def lookupNeighbors (m : NeighborMap) (k : Str) : List Str :=
  match m with
  | [] => []
  | p :: rest => if p.1 = k then p.2 else lookupNeighbors rest k

/-- `this.quotes.find(q => q.id === qid)`. -/
def findQuote (quotes : List Quote) (qid : Str) : Option Quote :=
  quotes.find? (fun q => decide (q.id = qid))

/-- `Set.add` over the candidate set: JS sets dedup by object identity, which
for distinct store records coincides with record equality; insertion order is
kept. -/
def addCandidate (cs : List Quote) (q : Quote) : List Quote :=
  if q ∈ cs then cs else cs ++ [q]

/-- The neighbor branch of `getCandidates`: resolve each neighbor id and keep
the quotes not excluded by the recency set. -/
def neighborCandidates (quotes : List Quote) (recent : List Str) (nbrs : List Str)
    (acc : List Quote) : List Quote :=
  match nbrs with
  | [] => acc
  | nid :: rest =>
    match findQuote quotes nid with
    | some q =>
        if q.id ∈ recent then neighborCandidates quotes recent rest acc
        else neighborCandidates quotes recent rest (addCandidate acc q)
    | none => neighborCandidates quotes recent rest acc

/-- The lexical qualification test: at least two seed tokens of length > 3
also occur among the candidate's tokens (case-insensitive). -/
def sharesLexical (seed q : Quote) : Bool :=
  let seedWords := wordsOf seed.text
  let quoteWords := wordsOf q.text
  let commonWords := seedWords.filter (fun w => decide (3 < w.length) && quoteWords.contains w)
  decide (2 ≤ commonWords.length)

/-- The lexical branch of `getCandidates`: scan the store, skipping the seed
and recency-excluded ids. -/
def lexicalCandidates (quotes : List Quote) (recent : List Str) (seed : Quote)
    (acc : List Quote) : List Quote :=
  match quotes with
  | [] => acc
  | q :: rest =>
    if q.id = seed.id ∨ q.id ∈ recent then lexicalCandidates rest recent seed acc
    else if sharesLexical seed q then lexicalCandidates rest recent seed (addCandidate acc q)
    else lexicalCandidates rest recent seed acc

/-- `getCandidates`: semantic neighbors first, then lexical matches, deduped
in insertion order. -/
def getCandidates (quotes : List Quote) (neighbors : NeighborMap) (recent : List Str)
    (seed : Quote) : List Quote :=
  lexicalCandidates quotes recent seed
    (neighborCandidates quotes recent (lookupNeighbors neighbors seed.id) [])

/-- JS `Array.indexOf`: first position of `x`, or `-1`. -/
def jsIndexOf (l : List Str) (x : Str) : Int :=
  match l with
  | [] => -1
  | y :: rest =>
    if y = x then 0
    else
      let r := jsIndexOf rest x
      if r = -1 then -1 else r + 1

/-- The per-candidate score of `rankCandidates`, written as the source
accumulates it; `rnd` is the draw of `Math.random() * 0.1` for this
candidate. -/
def rankScore (neighbors : NeighborMap) (seed : Quote) (cand : Quote) (rnd : ℚ) : ℚ :=
  let score0 : ℚ := 0
  let nbrs := lookupNeighbors neighbors seed.id
  let idx := jsIndexOf nbrs cand.id
  let score1 :=
    if idx = -1 then score0
    else score0 + ((nbrs.length : ℚ) - (idx : ℚ)) / (nbrs.length : ℚ) * 0.5
  let seedWords := (wordsOf seed.text).dedup
  let candidateWords := wordsOf cand.text
  let commonWords := candidateWords.filter (fun w => seedWords.contains w)
  let score2 := score1 +
    (commonWords.length : ℚ) / (max seedWords.length candidateWords.length : ℚ) * 0.3
  let score3 := if cand.author ≠ seed.author then score2 + 0.1 else score2
  let score4 := if cand.book_title ≠ seed.book_title then score3 + 0.1 else score3
  score4 + rnd

/-- `rankCandidates`: score each candidate, sort descending by score
(`Array.sort` with a numeric comparator, modelled as a stable comparison
sort), and strip the scores. -/
def rankCandidates (neighbors : NeighborMap) (rnd : Quote → ℚ) (cands : List Quote)
    (seed : Quote) : List Quote :=
  ((cands.map (fun c => (c, rankScore neighbors seed c (rnd c)))).insertionSort
      (fun a b => b.2 ≤ a.2)).map Prod.fst

/-! ## Browser-side AI rationale retrieval (`getAIRationale`) -/

/-- Persisted request settings read by `getAIRationale`; `model`,
`temperature` and `maxTokens` only feed the outbound request and are absorbed
by the fetch oracle. -/
structure Settings where
  systemPrompt : Str
  openaiApiKey : Str
deriving DecidableEq, Repr

/-- The session rationale cache `this.cache`: a plain map with no expiry. -/
abbrev BrowserCache := List (Str × Rationale)

/-- Outcome of the browser fetch-and-parse pipeline as seen at the catch
block. `okNotJson` carries the message of the `SyntaxError` thrown by
`JSON.parse`; `netError` the message of a failed `fetch`. -/
inductive BrowserAIOutcome where
  | okJson (title : Option Str) (rationale : Option Str) (labels : Option (List Str))
  | okNotJson (parseErrMsg : Str)
  | httpError (status : Nat)
  | netError (message : Str)
deriving DecidableEq, Repr

/-- Substring occurrence, JS `String.includes`. -/
def containsSub (hay needle : Str) : Bool :=
  match hay with
  | [] => decide (needle = [])
  | _ :: rest => needle.isPrefixOf hay || containsSub rest needle

/-- The error-kind-to-message table applied to the caught error's message. -/
def fallbackFor (message : Str) : Str :=
  if containsSub message "401".toList then
    "Invalid API key. Please check your OpenAI API key in Settings.".toList
  else if containsSub message "429".toList then
    "Rate limit reached. Please try again in a moment.".toList
  else if containsSub message "API request failed".toList then
    "Unable to connect to OpenAI. Please check your internet connection and API key.".toList
  else
    "This quote connects to your previous selection through shared themes and concepts.".toList

/-- `openaiApiKey.startsWith('sk-')`. -/
def startsWithSk (s : Str) : Bool :=
  match s with
  | 's' :: 'k' :: '-' :: _ => true
  | _ => false

/-- The browser-side cache key: `id-hash(systemPrompt)`. -/
def browserKey (sugId : Str) (systemPrompt : Str) : Str :=
  sugId ++ '-' :: hashString systemPrompt

/-- `getAIRationale`. Returns the rationale, the updated session cache, and
whether the network was consulted. -/
def getAIRationale (outcome : BrowserAIOutcome) (settings : Settings)
    (cache : BrowserCache) (suggestion : Quote) : Rationale × BrowserCache × Bool :=
  let cacheKey := browserKey suggestion.id settings.systemPrompt
  match alookup cache cacheKey with
  | some r => (r, cache, false)
  | none =>
    if settings.openaiApiKey = [] ∨ startsWithSk settings.openaiApiKey = false then
      (⟨"Connected Ideas".toList,
        "Add your OpenAI API key in Settings to get AI-powered connection explanations.".toList,
        ["adjacent".toList]⟩, cache, false)
    else
      match outcome with
      | .okJson title rat labels =>
          let r : Rationale :=
            ⟨jsOrDefault title "Connected Ideas".toList,
             jsOrDefault rat "These quotes share interesting connections.".toList,
             labels.getD ["adjacent".toList]⟩
          (r, aset cache cacheKey r, true)
      | .okNotJson msg =>
          (⟨"Connected Ideas".toList, fallbackFor msg, ["adjacent".toList]⟩, cache, true)
      | .httpError status =>
          (⟨"Connected Ideas".toList,
            fallbackFor ("API request failed: ".toList ++ (toString status).toList),
            ["adjacent".toList]⟩, cache, true)
      | .netError msg =>
          (⟨"Connected Ideas".toList, fallbackFor msg, ["adjacent".toList]⟩, cache, true)

/-! ## Recency set maintenance (`acceptSuggestion`) -/

/-- The recency-set update inside `acceptSuggestion`: add the accepted id
(JS `Set.add` keeps an existing member's position), then evict the oldest
member when the capacity of 20 is exceeded. -/
def acceptRecency (recent : List Str) (qid : Str) : List Str :=
  let r := if qid ∈ recent then recent else recent ++ [qid]
  if 20 < r.length then r.tail else r

/-- `acceptSuggestion`: append the accepted quote to the path and update the
recency set. -/
def acceptSuggestion (path : List Quote) (recent : List Str) (q : Quote) :
    List Quote × List Str :=
  (path ++ [q], acceptRecency recent q.id)

/-! ## Claim C7: response-cache expiry and overwrite discipline -/

/-- Claim C7: a `get` strictly after the entry's expiry instant returns absent
and removes the entry; a `get` at or before `expiresAt` returns the stored
value; a `set` stores with a fresh one-hour TTL from the moment of the write,
overwriting any prior entry under the same key. -/
theorem c7_cache_discipline {α : Type} (c : Cache α) (now : Int) (k : Str)
    (e : CacheEntry α) (v : α) :
    (alookup c k = some e → e.expires < now →
      getFromCache c now k = (none, aerase c k) ∧ alookup (aerase c k) k = none) ∧
    (alookup c k = some e → now ≤ e.expires →
      getFromCache c now k = (some e.data, c)) ∧
    alookup (setCache c now k v) k = some ⟨v, now + CACHE_TTL⟩ := by
  refine ⟨fun h hlt => ?_, fun h hle => ?_, ?_⟩
  · exact ⟨by simp [getFromCache, h, hlt], alookup_aerase_self c k⟩
  · simp [getFromCache, h, not_lt.2 hle]
  · exact alookup_aset_self c k ⟨v, now + CACHE_TTL⟩

/-- Witness for C7 at a concrete cache: an entry expiring at 5 is gone when
read at 6 (one tick past expiry), still served at 5, and `set` rebinding the
key yields the fresh entry. -/
theorem c7_cache_discipline_witness :
    (getFromCache [("k".toList, (⟨0, 5⟩ : CacheEntry Nat))] 6 "k".toList =
        (none, aerase [("k".toList, (⟨0, 5⟩ : CacheEntry Nat))] "k".toList) ∧
      alookup (aerase [("k".toList, (⟨(0 : Nat), 5⟩ : CacheEntry Nat))] "k".toList) "k".toList
        = none) ∧
    getFromCache [("k".toList, (⟨0, 5⟩ : CacheEntry Nat))] 5 "k".toList =
      (some 0, [("k".toList, (⟨0, 5⟩ : CacheEntry Nat))]) ∧
    alookup (setCache [("k".toList, (⟨0, 5⟩ : CacheEntry Nat))] 7 "k".toList 9) "k".toList
      = some ⟨9, 7 + CACHE_TTL⟩ := by
  refine ⟨(c7_cache_discipline _ 6 _ ⟨0, 5⟩ 9).1 (by decide) (by decide),
    ((c7_cache_discipline _ 5 _ ⟨0, 5⟩ 9).2.1 (by decide) (by decide)),
    (c7_cache_discipline [("k".toList, (⟨0, 5⟩ : CacheEntry Nat))] 7 "k".toList ⟨0, 5⟩ 9).2.2⟩

/-! ## Claim C8: the recency set is bounded by 20, oldest evicted first -/

/-- Claim C8: every `acceptSuggestion` preserves the bound of 20 on the
recency set, and when the insertion pushes the set past the capacity, the
oldest member in insertion order (the head) is the one evicted. -/
theorem c8_recency_bound (path : List Quote) (recent : List Str) (q : Quote)
    (h : recent.length ≤ 20) :
    (acceptSuggestion path recent q).2.length ≤ 20 ∧
    (recent.length = 20 → q.id ∉ recent →
      (acceptSuggestion path recent q).2 = recent.tail ++ [q.id]) := by
  simp only [acceptSuggestion, acceptRecency]
  by_cases hm : q.id ∈ recent
  · simp only [if_pos hm]
    rw [if_neg (by omega)]
    exact ⟨h, fun _ habs => absurd hm habs⟩
  · simp only [if_neg hm]
    constructor
    · by_cases hlen : 20 < (recent ++ [q.id]).length
      · rw [if_pos hlen]
        simp only [List.length_tail, List.length_append, List.length_singleton] at *
        omega
      · rw [if_neg hlen]
        exact Nat.le_of_not_lt hlen
    · intro h20 _
      rw [if_pos (by simp [h20])]
      match recent, h20 with
      | r :: rs, _ => simp

/-- Witness for C8: a full recency set of 20 ids accepts a new quote, stays at
20, and evicts exactly its oldest id. -/
theorem c8_recency_bound_witness :
    (acceptSuggestion [] ((List.range 20).map (fun i => (toString i).toList))
        ⟨"x".toList, "t".toList, none, none⟩).2.length ≤ 20 ∧
    (acceptSuggestion [] ((List.range 20).map (fun i => (toString i).toList))
        ⟨"x".toList, "t".toList, none, none⟩).2 =
      ((List.range 20).map (fun i => (toString i).toList)).tail ++ ["x".toList] := by
  have h := c8_recency_bound [] ((List.range 20).map (fun i => (toString i).toList))
    ⟨"x".toList, "t".toList, none, none⟩ (by decide)
  exact ⟨h.1, h.2 (by decide) (by decide)⟩

/-! ## Claim C6: sliding-window rate limiter -/

/-- Run a sequence of checks for one identity at the given instants,
threading the store and collecting the allow/deny verdicts. -/
def simulateRate (cid : Str) (times : List Int) (st : RateStore) : List Bool :=
  match times with
  | [] => []
  | t :: rest =>
    let r := checkRateLimit st cid t
    r.1 :: simulateRate cid rest r.2

theorem alookup_eq_none_iff {α : Type} (l : List (Str × α)) (k : Str) :
    alookup l k = none ↔ k ∉ l.map Prod.fst := by
  induction l with
  | nil => exact ⟨fun _ h => absurd h (List.not_mem_nil k), fun _ => rfl⟩
  | cons p rest ih =>
    simp only [alookup, List.map_cons, List.mem_cons]
    by_cases hp : p.1 = k
    · rw [if_pos hp]
      exact ⟨fun h => absurd h (by simp), fun h => absurd (Or.inl hp.symm) h⟩
    · rw [if_neg hp, ih]
      constructor
      · intro h hmem
        cases hmem with
        | inl h1 => exact hp h1.symm
        | inr h2 => exact h h2
      · exact fun h hm => h (Or.inr hm)

theorem cleanRate_cons (p : Str × List Int) (rest : RateStore) (w : Int) :
    cleanRate (p :: rest) w =
      if (p.2.filter (fun t => decide (w < t))).isEmpty then cleanRate rest w
      else (p.1, p.2.filter (fun t => decide (w < t))) :: cleanRate rest w := by
  simp only [cleanRate, List.map_cons, List.filter_cons]
  cases he : (List.filter (fun t => decide (w < t)) p.2).isEmpty
  · simp [he, cleanRate]
  · simp [he, cleanRate]

theorem alookup_cleanRate_none (st : RateStore) (w : Int) (k : Str)
    (h : alookup st k = none) : alookup (cleanRate st w) k = none := by
  induction st with
  | nil => rfl
  | cons p rest ih =>
    simp only [alookup] at h
    by_cases hp : p.1 = k
    · rw [if_pos hp] at h; cases h
    · rw [if_neg hp] at h
      rw [cleanRate_cons]
      by_cases he : (p.2.filter (fun t => decide (w < t))).isEmpty
      · rw [if_pos he]; exact ih h
      · rw [if_neg he]
        simp only [alookup]
        rw [if_neg hp]
        exact ih h

theorem ratesOf_cleanRate (st : RateStore) (w : Int) (k : Str)
    (hnd : (st.map Prod.fst).Nodup) :
    ratesOf (cleanRate st w) k = (ratesOf st k).filter (fun t => decide (w < t)) := by
  induction st with
  | nil => rfl
  | cons p rest ih =>
    simp only [List.map_cons, List.nodup_cons] at hnd
    obtain ⟨hnot, hrest⟩ := hnd
    rw [cleanRate_cons]
    by_cases hp : p.1 = k
    · by_cases he : (p.2.filter (fun t => decide (w < t))).isEmpty
      · rw [if_pos he]
        have hnone : alookup (cleanRate rest w) k = none :=
          alookup_cleanRate_none rest w k
            ((alookup_eq_none_iff rest k).2 (fun hm => hnot (hp ▸ hm)))
        have hfe : p.2.filter (fun t => decide (w < t)) = [] := List.isEmpty_iff.1 he
        simp [ratesOf, hnone, alookup, hp, hfe]
      · rw [if_neg he]
        simp [ratesOf, alookup, hp]
    · by_cases he : (p.2.filter (fun t => decide (w < t))).isEmpty
      · rw [if_pos he, ih hrest]
        simp [ratesOf, alookup, hp]
      · rw [if_neg he]
        have hr := ih hrest
        simp only [ratesOf, alookup, if_neg hp]
        simpa [ratesOf] using hr

theorem filter_idem (l : List Int) (p : Int → Bool) : (l.filter p).filter p = l.filter p := by
  simp [List.filter_filter]

/-- Claim C6: from an empty window, requests 1..30 at one instant are allowed
and the 31st is denied; a denied check records no timestamp (the identity's
window is exactly its purge); an allowed check appends the current instant;
and an identity all of whose timestamps have left the window is allowed
again. -/
theorem c6_rate_limiter :
    simulateRate "c".toList (List.replicate 31 (0 : Int)) [] =
      List.replicate 30 true ++ [false] ∧
    (∀ (st : RateStore) (cid : Str) (now : Int), (st.map Prod.fst).Nodup →
      ((checkRateLimit st cid now).1 = false →
        ratesOf (checkRateLimit st cid now).2 cid =
          (ratesOf st cid).filter (fun t => decide (now - RATE_LIMIT_WINDOW < t)) ∧
        RATE_LIMIT_MAX_REQUESTS ≤
          ((ratesOf st cid).filter (fun t => decide (now - RATE_LIMIT_WINDOW < t))).length) ∧
      ((checkRateLimit st cid now).1 = true →
        ratesOf (checkRateLimit st cid now).2 cid =
          (ratesOf st cid).filter (fun t => decide (now - RATE_LIMIT_WINDOW < t)) ++ [now]) ∧
      ((∀ t ∈ ratesOf st cid, t ≤ now - RATE_LIMIT_WINDOW) →
        (checkRateLimit st cid now).1 = true)) := by
  constructor
  · decide
  · intro st cid now hnd
    have hclean := ratesOf_cleanRate st (now - RATE_LIMIT_WINDOW) cid hnd
    have hidem := filter_idem (ratesOf st cid) (fun t => decide (now - RATE_LIMIT_WINDOW < t))
    refine ⟨fun hdeny => ?_, fun hallow => ?_, fun hold => ?_⟩
    · simp only [checkRateLimit] at hdeny ⊢
      by_cases hcap : RATE_LIMIT_MAX_REQUESTS ≤
          ((ratesOf (cleanRate st (now - RATE_LIMIT_WINDOW)) cid).filter
            (fun t => decide (now - RATE_LIMIT_WINDOW < t))).length
      · rw [hclean, hidem] at hcap
        refine ⟨?_, hcap⟩
        rw [if_pos (by rw [hclean, hidem]; exact hcap)]
        exact hclean
      · rw [if_neg hcap] at hdeny
        exact absurd hdeny (by simp)
    · simp only [checkRateLimit] at hallow ⊢
      by_cases hcap : RATE_LIMIT_MAX_REQUESTS ≤
          ((ratesOf (cleanRate st (now - RATE_LIMIT_WINDOW)) cid).filter
            (fun t => decide (now - RATE_LIMIT_WINDOW < t))).length
      · rw [if_pos hcap] at hallow
        exact absurd hallow (by simp)
      · rw [if_neg hcap, hclean, hidem]
        simp only [ratesOf, alookup_aset_self, Option.getD_some]
    · simp only [checkRateLimit]
      have hnil : (ratesOf st cid).filter (fun t => decide (now - RATE_LIMIT_WINDOW < t)) = [] := by
        rw [List.filter_eq_nil_iff]
        intro t ht
        simpa using not_lt.2 (hold t ht)
      rw [if_neg (by rw [hclean, hidem, hnil]; simp [RATE_LIMIT_MAX_REQUESTS])]

/-- Witness for C6's quantified parts at a concrete store: an identity with 30
in-window timestamps is denied and keeps exactly those 30; one with 29 is
allowed and gains the current instant; one whose timestamps all left the
window is allowed again. -/
theorem c6_rate_limiter_witness :
    ((checkRateLimit [("c".toList, List.replicate 30 (0 : Int))] "c".toList 1).1 = false →
      ratesOf (checkRateLimit [("c".toList, List.replicate 30 (0 : Int))] "c".toList 1).2
          "c".toList =
        (List.replicate 30 (0 : Int)).filter
          (fun t => decide ((1 : Int) - RATE_LIMIT_WINDOW < t)) ∧
      RATE_LIMIT_MAX_REQUESTS ≤
        ((List.replicate 30 (0 : Int)).filter
          (fun t => decide ((1 : Int) - RATE_LIMIT_WINDOW < t))).length) ∧
    ((checkRateLimit [("c".toList, List.replicate 29 (0 : Int))] "c".toList 1).1 = true →
      ratesOf (checkRateLimit [("c".toList, List.replicate 29 (0 : Int))] "c".toList 1).2
          "c".toList =
        (List.replicate 29 (0 : Int)).filter
          (fun t => decide ((1 : Int) - RATE_LIMIT_WINDOW < t)) ++ [1]) ∧
    ((∀ t ∈ ratesOf [("c".toList, List.replicate 30 (0 : Int))] "c".toList,
        t ≤ (70000 : Int) - RATE_LIMIT_WINDOW) →
      (checkRateLimit [("c".toList, List.replicate 30 (0 : Int))] "c".toList 70000).1 = true) := by
  have h30 := (c6_rate_limiter.2 [("c".toList, List.replicate 30 (0 : Int))] "c".toList 1
    (by decide))
  have h29 := (c6_rate_limiter.2 [("c".toList, List.replicate 29 (0 : Int))] "c".toList 1
    (by decide))
  have hreset := (c6_rate_limiter.2 [("c".toList, List.replicate 30 (0 : Int))] "c".toList 70000
    (by decide))
  simpa [ratesOf] using ⟨h30.1, h29.2.1, hreset.2.2⟩

/-! ## Claim C10: the browser rationale cache has no expiry -/

/-- Claim C10: the session cache of `getAIRationale` is keyed by suggestion id
and system-prompt hash and has no expiry: a present entry is returned as is,
with the cache untouched and no network request, whatever the fetch oracle
would do; no call ever disturbs an existing entry; and a successful fetch on
a miss stores the normalized rationale under its key. -/
theorem c10_browser_cache_persistence :
    (∀ (outcome : BrowserAIOutcome) (settings : Settings) (cache : BrowserCache)
        (sugg : Quote) (r : Rationale),
      alookup cache (browserKey sugg.id settings.systemPrompt) = some r →
      getAIRationale outcome settings cache sugg = (r, cache, false)) ∧
    (∀ (outcome : BrowserAIOutcome) (settings : Settings) (cache : BrowserCache)
        (sugg : Quote) (k : Str) (r : Rationale),
      alookup cache k = some r →
      alookup (getAIRationale outcome settings cache sugg).2.1 k = some r) ∧
    (∀ (title rat : Option Str) (labels : Option (List Str)) (settings : Settings)
        (cache : BrowserCache) (sugg : Quote),
      alookup cache (browserKey sugg.id settings.systemPrompt) = none →
      startsWithSk settings.openaiApiKey = true →
      alookup (getAIRationale (.okJson title rat labels) settings cache sugg).2.1
          (browserKey sugg.id settings.systemPrompt) =
        some ⟨jsOrDefault title "Connected Ideas".toList,
          jsOrDefault rat "These quotes share interesting connections.".toList,
          labels.getD ["adjacent".toList]⟩) := by
  have hkeyok : ∀ s : Str, startsWithSk s = true → ¬(s = [] ∨ startsWithSk s = false) := by
    intro s hs h
    cases h with
    | inl h1 => rw [h1] at hs; cases hs
    | inr h2 => rw [hs] at h2; cases h2
  refine ⟨fun outcome settings cache sugg r hhit => ?_, ?_, ?_⟩
  · simp [getAIRationale, hhit]
  · intro outcome settings cache sugg k r hk
    by_cases hhit : ∃ r0, alookup cache (browserKey sugg.id settings.systemPrompt) = some r0
    · obtain ⟨r0, hr0⟩ := hhit
      simp [getAIRationale, hr0, hk]
    · have hmiss : alookup cache (browserKey sugg.id settings.systemPrompt) = none := by
        cases hl : alookup cache (browserKey sugg.id settings.systemPrompt) with
        | none => rfl
        | some r0 => exact absurd ⟨r0, hl⟩ hhit
      have hne : k ≠ browserKey sugg.id settings.systemPrompt := by
        intro he; rw [he, hmiss] at hk; cases hk
      by_cases hbad : settings.openaiApiKey = [] ∨ startsWithSk settings.openaiApiKey = false
      · simp [getAIRationale, hmiss, hbad, hk]
      · cases outcome with
        | okJson t ra la =>
            simp only [getAIRationale, hmiss, if_neg hbad]
            simpa using (alookup_aset_ne cache _ k _ hne).trans hk
        | okNotJson m => simp [getAIRationale, hmiss, hbad, hk]
        | httpError s => simp [getAIRationale, hmiss, hbad, hk]
        | netError m => simp [getAIRationale, hmiss, hbad, hk]
  · intro title rat labels settings cache sugg hmiss hsk
    simp only [getAIRationale, hmiss, if_neg (hkeyok _ hsk)]
    exact alookup_aset_self _ _ _

/-- Witness for C10 at a concrete session: a cached rationale is returned
untouched with no network use even under an HTTP-500 oracle; it survives an
unrelated call; and a successful fetch stores its normalized result. -/
theorem c10_browser_cache_persistence_witness :
    getAIRationale (.httpError 500) ⟨"p".toList, "sk-a".toList⟩
        [(browserKey "q".toList "p".toList,
          (⟨"T".toList, "R".toList, ["adjacent".toList]⟩ : Rationale))]
        ⟨"q".toList, "t".toList, none, none⟩ =
      (⟨"T".toList, "R".toList, ["adjacent".toList]⟩,
       [(browserKey "q".toList "p".toList,
         (⟨"T".toList, "R".toList, ["adjacent".toList]⟩ : Rationale))], false) ∧
    alookup (getAIRationale (.okJson (some "U".toList) (some "S".toList) none)
        ⟨"p2".toList, "sk-a".toList⟩
        [(browserKey "q".toList "p".toList,
          (⟨"T".toList, "R".toList, ["adjacent".toList]⟩ : Rationale))]
        ⟨"q".toList, "t".toList, none, none⟩).2.1
      (browserKey "q".toList "p".toList) =
      some ⟨"T".toList, "R".toList, ["adjacent".toList]⟩ ∧
    alookup (getAIRationale (.okJson (some "U".toList) (some "S".toList) none)
        ⟨"p".toList, "sk-a".toList⟩ [] ⟨"q".toList, "t".toList, none, none⟩).2.1
      (browserKey "q".toList "p".toList) =
      some ⟨"U".toList, "S".toList, ["adjacent".toList]⟩ := by
  refine ⟨c10_browser_cache_persistence.1 _ _ _ _ _ (by decide), ?_, ?_⟩
  · exact c10_browser_cache_persistence.2.1 _ _ _ _ _ _ (by decide)
  · have h := c10_browser_cache_persistence.2.2 (some "U".toList) (some "S".toList) none
      ⟨"p".toList, "sk-a".toList⟩ [] ⟨"q".toList, "t".toList, none, none⟩ (by decide) (by decide)
    simpa [jsOrDefault] using h

/-! ## Claim C3: degraded rationales on AI-client failure -/

/-- Counterexample to claim C3: on the serverless path, a 2xx reply with
malformed JSON yields the degraded substring fallback and that degraded
rationale IS written to the response cache; and a non-2xx status makes
`handleSuggestLogic` propagate an error instead of returning any degraded
rationale at all. -/
theorem c3_failure_table_counterexample :
    alookup (handleSuggestLogic (.ok (.notJson "oops".toList)) 0 ⟨[], [], []⟩
        (some ⟨"q".toList, "t".toList, none, none⟩) none).2.1.suggestCache
      (getCacheKey "suggest".toList "q".toList none) =
      some ⟨⟨"Connected Ideas".toList, "oops...".toList, ["adjacent".toList]⟩, CACHE_TTL⟩ ∧
    (handleSuggestLogic (.httpError 500) 0 ⟨[], [], []⟩
        (some ⟨"q".toList, "t".toList, none, none⟩) none).1 =
      .error "OpenAI API error: 500".toList := by
  constructor
  · decide
  · decide

/-- Claim C3 (amended): the error-kind-to-message table lives on the
browser path: there, an HTTP 401 yields the check-your-API-key fallback, a
429 the try-again fallback, and any other failure message its table entry
(generic when nothing matches), always with labels `["adjacent"]` and with no
cache write; on the serverless path, by contrast, non-2xx failures propagate
as errors and the malformed-JSON fallback is cached. -/
theorem c3_failure_table (settings : Settings) (cache : BrowserCache) (sugg : Quote)
    (hmiss : alookup cache (browserKey sugg.id settings.systemPrompt) = none)
    (hsk : startsWithSk settings.openaiApiKey = true) :
    getAIRationale (.httpError 401) settings cache sugg =
      (⟨"Connected Ideas".toList,
        "Invalid API key. Please check your OpenAI API key in Settings.".toList,
        ["adjacent".toList]⟩, cache, true) ∧
    getAIRationale (.httpError 429) settings cache sugg =
      (⟨"Connected Ideas".toList,
        "Rate limit reached. Please try again in a moment.".toList,
        ["adjacent".toList]⟩, cache, true) ∧
    (∀ m, getAIRationale (.netError m) settings cache sugg =
      (⟨"Connected Ideas".toList, fallbackFor m, ["adjacent".toList]⟩, cache, true)) ∧
    (∀ m, getAIRationale (.okNotJson m) settings cache sugg =
      (⟨"Connected Ideas".toList, fallbackFor m, ["adjacent".toList]⟩, cache, true)) ∧
    fallbackFor "fetch failed".toList =
      "This quote connects to your previous selection through shared themes and concepts.".toList := by
  have hbad : ¬(settings.openaiApiKey = [] ∨ startsWithSk settings.openaiApiKey = false) := by
    intro h
    cases h with
    | inl h1 => rw [h1] at hsk; cases hsk
    | inr h2 => rw [hsk] at h2; cases h2
  refine ⟨?_, ?_, fun m => ?_, fun m => ?_, by decide⟩
  · simp only [getAIRationale, hmiss, if_neg hbad]
    have : fallbackFor ("API request failed: ".toList ++ (toString 401).toList) =
        "Invalid API key. Please check your OpenAI API key in Settings.".toList := by decide
    rw [this]
  · simp only [getAIRationale, hmiss, if_neg hbad]
    have : fallbackFor ("API request failed: ".toList ++ (toString 429).toList) =
        "Rate limit reached. Please try again in a moment.".toList := by decide
    rw [this]
  · simp only [getAIRationale, hmiss, if_neg hbad]
  · simp only [getAIRationale, hmiss, if_neg hbad]

/-- Witness for C3 (amended) at a concrete session: the 401 branch applied to
an empty cache and a well-formed key. -/
theorem c3_failure_table_witness :
    getAIRationale (.httpError 401) ⟨"p".toList, "sk-a".toList⟩ []
        ⟨"q".toList, "t".toList, none, none⟩ =
      (⟨"Connected Ideas".toList,
        "Invalid API key. Please check your OpenAI API key in Settings.".toList,
        ["adjacent".toList]⟩, [], true) :=
  (c3_failure_table ⟨"p".toList, "sk-a".toList⟩ [] ⟨"q".toList, "t".toList, none, none⟩
    (by decide) (by decide)).1

/-! ## Claim C1: ordering of cache check, rate-limit check and AI call -/

def c1Quote : Quote := ⟨"q".toList, "t".toList, none, none⟩

def c1Rationale : Rationale := ⟨"T".toList, "R".toList, ["adjacent".toList]⟩

def c1Key : Str := getCacheKey "suggest".toList "q".toList none

/-- A server state whose rate window for the default identity is at the cap,
while the response cache holds an unexpired rationale for `c1Quote`. -/
def c1StateFull : ServerState :=
  ⟨[(getClientId none, List.replicate 30 0)], [(c1Key, ⟨c1Rationale, 3600000⟩)], []⟩

/-- Like `c1StateFull` but with one slot left in the rate window. -/
def c1State29 : ServerState :=
  ⟨[(getClientId none, List.replicate 29 0)], [(c1Key, ⟨c1Rationale, 3600000⟩)], []⟩

/-- Counterexample to claim C1: in `handleSuggestLogic` the rate-limit check
comes first, not the cache lookup. With an unexpired cached entry present, a
request at the cap is rejected outright instead of being served from the
cache, and a request under the cap is served from the cache but still records
a timestamp in the rate window. -/
theorem c1_cache_first_counterexample :
    (getFromCache c1StateFull.suggestCache 0 c1Key).1 = some c1Rationale ∧
    (handleSuggestLogic (.ok (.jsonObj none none none)) 0 c1StateFull
        (some c1Quote) none).1 = .error "Rate limit exceeded".toList ∧
    (handleSuggestLogic (.ok (.jsonObj none none none)) 0 c1State29
        (some c1Quote) none).1 = .ok c1Rationale ∧
    ratesOf (handleSuggestLogic (.ok (.jsonObj none none none)) 0 c1State29
        (some c1Quote) none).2.1.rateLimitStore (getClientId none) =
      List.replicate 29 0 ++ [0] := by
  refine ⟨by decide, by decide, by decide, by decide⟩

/-- Claim C1 (amended): within `handleSuggestLogic` the rate-limit check
strictly precedes the cache lookup, which strictly precedes the AI call: a
request that passes the rate limit (thereby recording its timestamp) and
whose cache key has an unexpired entry is answered from the cache with no AI
Client invocation, for every AI oracle. -/
theorem c1_flow_order (ai : AIOutcome AIContent) (now : Int) (st : ServerState)
    (q : Quote) (sp : Option Str) (r : Rationale)
    (htext : ¬q.text = [])
    (hallow : (checkRateLimit st.rateLimitStore (getClientId sp) now).1 = true)
    (hhit : (getFromCache st.suggestCache now
      (getCacheKey "suggest".toList q.id sp)).1 = some r) :
    handleSuggestLogic ai now st (some q) sp =
      (.ok r,
       ⟨(checkRateLimit st.rateLimitStore (getClientId sp) now).2,
        (getFromCache st.suggestCache now (getCacheKey "suggest".toList q.id sp)).2,
        st.routeCache⟩, false) := by
  simp only [handleSuggestLogic, if_neg htext, hallow, hhit]
  simp

/-- Witness for C1 (amended): the under-cap state with a warm cache answers
from the cache even under an HTTP-500 oracle, with the rate window updated
and the AI flag false. -/
theorem c1_flow_order_witness :
    handleSuggestLogic (.httpError 500) 0 c1State29 (some c1Quote) none =
      (.ok c1Rationale,
       ⟨(checkRateLimit c1State29.rateLimitStore (getClientId none) 0).2,
        (getFromCache c1State29.suggestCache 0
          (getCacheKey "suggest".toList c1Quote.id none)).2,
        c1State29.routeCache⟩, false) :=
  c1_flow_order (.httpError 500) 0 c1State29 c1Quote none c1Rationale
    (by decide) (by decide) (by decide)

/-! ## Claim C2: the suggestion flow raises on rate-limit denial -/

def c2Quote : Quote := ⟨"q".toList, "t".toList, none, none⟩

def c2StateFull : ServerState := ⟨[(getClientId none, List.replicate 30 0)], [], []⟩

def c2StateEmpty : ServerState := ⟨[], [], []⟩

/-- Counterexample to claim C2: with non-empty suggestion text and the rate
window at the cap, `handleSuggestLogic` throws `Rate limit exceeded` instead
of returning any (degraded) Rationale. -/
theorem c2_never_raises_counterexample :
    (handleSuggestLogic (.ok (.jsonObj none none none)) 0 c2StateFull
        (some c2Quote) none).1 = .error "Rate limit exceeded".toList ∧
    ¬∃ r, (handleSuggestLogic (.ok (.jsonObj none none none)) 0 c2StateFull
        (some c2Quote) none).1 = .ok r := by
  have h : (handleSuggestLogic (.ok (.jsonObj none none none)) 0 c2StateFull
      (some c2Quote) none).1 = .error "Rate limit exceeded".toList := by decide
  refine ⟨h, ?_⟩
  rintro ⟨r, hr⟩
  rw [h] at hr
  cases hr

/-- Claim C2 (amended): on the serverless path, rate-limit denial is a raised
`Rate limit exceeded` error (with no AI invocation), not a degraded
Rationale; when the rate limiter allows and the AI reply arrives,
`handleSuggestLogic` always returns a Rationale (possibly the degraded
malformed-JSON fallback). The graceful rate-limit degradation the claim
describes exists nowhere: the browser path consults no rate limiter. -/
theorem c2_explain_behavior (ai : AIOutcome AIContent) (now : Int) (st : ServerState)
    (q : Quote) (sp : Option Str) (htext : ¬q.text = []) :
    ((checkRateLimit st.rateLimitStore (getClientId sp) now).1 = false →
      (handleSuggestLogic ai now st (some q) sp).1 = .error "Rate limit exceeded".toList ∧
      (handleSuggestLogic ai now st (some q) sp).2.2 = false) ∧
    (∀ content, (checkRateLimit st.rateLimitStore (getClientId sp) now).1 = true →
      ∃ r, (handleSuggestLogic (.ok content) now st (some q) sp).1 = .ok r) := by
  constructor
  · intro hdeny
    constructor
    · simp [handleSuggestLogic, if_neg htext, hdeny]
    · simp [handleSuggestLogic, if_neg htext, hdeny]
  · intro content hallow
    cases hhit : (getFromCache st.suggestCache now
        (getCacheKey "suggest".toList q.id sp)).1 with
    | some r =>
        refine ⟨r, ?_⟩
        simp only [handleSuggestLogic, if_neg htext, hallow, hhit]
        simp
    | none =>
        refine ⟨parseSuggestionResponse content, ?_⟩
        simp only [handleSuggestLogic, if_neg htext, hallow, hhit]
        simp

/-- Witness for C2 (amended): at the cap the concrete run raises; from an
empty window the same request returns a Rationale. -/
theorem c2_explain_behavior_witness :
    ((handleSuggestLogic (.ok (.jsonObj none none none)) 0 c2StateFull
        (some c2Quote) none).1 = .error "Rate limit exceeded".toList ∧
      (handleSuggestLogic (.ok (.jsonObj none none none)) 0 c2StateFull
        (some c2Quote) none).2.2 = false) ∧
    ∃ r, (handleSuggestLogic (.ok (.jsonObj none none none)) 0 c2StateEmpty
        (some c2Quote) none).1 = .ok r := by
  refine ⟨(c2_explain_behavior (.ok (.jsonObj none none none)) 0 c2StateFull c2Quote none
      (by decide)).1 (by decide),
    (c2_explain_behavior (.ok (.jsonObj none none none)) 0 c2StateEmpty c2Quote none
      (by decide)).2 (.jsonObj none none none) (by decide)⟩

/-! ## Claim C4: candidate generation excludes the seed and recency ids -/

theorem mem_addCandidate {cs : List Quote} {q q' : Quote} :
    q' ∈ addCandidate cs q ↔ q' ∈ cs ∨ q' = q := by
  unfold addCandidate
  by_cases h : q ∈ cs
  · rw [if_pos h]
    exact ⟨Or.inl, fun hq => hq.elim id (fun e => e ▸ h)⟩
  · rw [if_neg h]
    simp

theorem findQuote_id {quotes : List Quote} {nid : Str} {q : Quote}
    (h : findQuote quotes nid = some q) : q.id = nid := by
  have := List.find?_some h
  exact of_decide_eq_true this

theorem neighborCandidates_spec (quotes : List Quote) (recent : List Str) :
    ∀ (nbrs : List Str) (acc : List Quote) (q' : Quote),
      q' ∈ neighborCandidates quotes recent nbrs acc →
      q' ∈ acc ∨ (q'.id ∉ recent ∧ q'.id ∈ nbrs) := by
  intro nbrs
  induction nbrs with
  | nil => exact fun acc q' h => Or.inl h
  | cons nid rest ih =>
    intro acc q' h
    simp only [neighborCandidates] at h
    cases hf : findQuote quotes nid with
    | none =>
        simp only [hf] at h
        rcases ih acc q' h with h1 | ⟨h2, h3⟩
        · exact Or.inl h1
        · exact Or.inr ⟨h2, List.mem_cons_of_mem _ h3⟩
    | some q =>
        simp only [hf] at h
        by_cases hr : q.id ∈ recent
        · rw [if_pos hr] at h
          rcases ih acc q' h with h1 | ⟨h2, h3⟩
          · exact Or.inl h1
          · exact Or.inr ⟨h2, List.mem_cons_of_mem _ h3⟩
        · rw [if_neg hr] at h
          rcases ih _ q' h with h1 | ⟨h2, h3⟩
          · rcases mem_addCandidate.1 h1 with h4 | h4
            · exact Or.inl h4
            · subst h4
              exact Or.inr ⟨hr, by rw [findQuote_id hf]; exact List.mem_cons_self _ _⟩
          · exact Or.inr ⟨h2, List.mem_cons_of_mem _ h3⟩

theorem lexicalCandidates_spec (recent : List Str) (seed : Quote) :
    ∀ (quotes : List Quote) (acc : List Quote) (q' : Quote),
      q' ∈ lexicalCandidates quotes recent seed acc →
      q' ∈ acc ∨ (q'.id ≠ seed.id ∧ q'.id ∉ recent) := by
  intro quotes
  induction quotes with
  | nil => exact fun acc q' h => Or.inl h
  | cons q rest ih =>
    intro acc q' h
    simp only [lexicalCandidates] at h
    by_cases hskip : q.id = seed.id ∨ q.id ∈ recent
    · rw [if_pos hskip] at h
      exact ih acc q' h
    · rw [if_neg hskip] at h
      push_neg at hskip
      by_cases hl : sharesLexical seed q
      · rw [if_pos hl] at h
        rcases ih _ q' h with h1 | h1
        · rcases mem_addCandidate.1 h1 with h2 | h2
          · exact Or.inl h2
          · subst h2
            exact Or.inr hskip
        · exact Or.inr h1
      · rw [if_neg hl] at h
        exact ih acc q' h

/-- Claim C4 (amended): the output of `getCandidates` never contains a quote
whose id is in the recency set, and never contains the seed provided the
seed's id does not occur in its own neighbor list — the neighbor branch drops
only unresolved and recency-excluded ids, so a self-neighbor leaks through. -/
theorem c4_candidate_exclusions (quotes : List Quote) (neighbors : NeighborMap)
    (recent : List Str) (seed : Quote) :
    (∀ q' ∈ getCandidates quotes neighbors recent seed, q'.id ∉ recent) ∧
    (seed.id ∉ lookupNeighbors neighbors seed.id →
      ∀ q' ∈ getCandidates quotes neighbors recent seed, q'.id ≠ seed.id) := by
  constructor
  · intro q' hq
    rcases lexicalCandidates_spec recent seed quotes _ q' hq with h | ⟨_, h2⟩
    · rcases neighborCandidates_spec quotes recent _ [] q' h with h1 | ⟨h2, _⟩
      · cases h1
      · exact h2
    · exact h2
  · intro hself q' hq
    rcases lexicalCandidates_spec recent seed quotes _ q' hq with h | ⟨h1, _⟩
    · rcases neighborCandidates_spec quotes recent _ [] q' h with h1 | ⟨_, h3⟩
      · cases h1
      · exact fun he => hself (he ▸ h3)
    · exact h1

def c4Seed : Quote := ⟨"s".toList, "only two tokens".toList, none, none⟩

/-- Counterexample to claim C4: when the seed's id occurs in its own neighbor
list, the neighbor branch returns the seed itself — the claim's unconditional
seed exclusion fails. -/
theorem c4_seed_excluded_counterexample :
    c4Seed ∈ getCandidates [c4Seed] [("s".toList, ["s".toList])] [] c4Seed := by
  decide

def c4QuoteA : Quote := ⟨"a".toList, "alpha beta gamma delta".toList, none, none⟩

def c4QuoteB : Quote := ⟨"b".toList, "alpha beta delta junk".toList, none, none⟩

/-- Witness for C4 (amended): in a concrete store where `b` is both a
neighbor and a lexical match of seed `a`, the produced candidate `b` is
neither recency-excluded nor the seed. -/
theorem c4_candidate_exclusions_witness :
    c4QuoteB ∈ getCandidates [c4QuoteA, c4QuoteB] [("a".toList, ["b".toList])]
      ["r".toList] c4QuoteA ∧
    c4QuoteB.id ∉ ["r".toList] ∧ c4QuoteB.id ≠ c4QuoteA.id := by
  have h := c4_candidate_exclusions [c4QuoteA, c4QuoteB] [("a".toList, ["b".toList])]
    ["r".toList] c4QuoteA
  exact ⟨by decide, h.1 c4QuoteB (by decide), h.2 (by decide) c4QuoteB (by decide)⟩

/-! ## Claim C5: the ranking score and order -/

/-- Graph term: `(N - i) / N * 0.5` for neighbor position `i`, else 0. -/
def graphTerm (neighbors : NeighborMap) (seed cand : Quote) : ℚ :=
  let nbrs := lookupNeighbors neighbors seed.id
  let idx := jsIndexOf nbrs cand.id
  if idx = -1 then 0 else ((nbrs.length : ℚ) - (idx : ℚ)) / (nbrs.length : ℚ) * 0.5

/-- Lexical term as the code computes it: candidate tokens (with
multiplicity) that occur in the seed's token set, over the larger of the seed
token-set size and the candidate token-list length, times 0.3. -/
def lexTerm (seed cand : Quote) : ℚ :=
  let seedWords := (wordsOf seed.text).dedup
  let candidateWords := wordsOf cand.text
  ((candidateWords.filter (fun w => seedWords.contains w)).length : ℚ) /
    (max seedWords.length candidateWords.length : ℚ) * 0.3

/-- Novelty term: +0.1 per differing author and differing book title. -/
def noveltyTerm (seed cand : Quote) : ℚ :=
  (if cand.author ≠ seed.author then 0.1 else 0) +
    (if cand.book_title ≠ seed.book_title then 0.1 else 0)

/-- The lexical term as claim C5 words it: intersection of the two token SETS
over the larger of the two token-set sizes, times 0.3. -/
def claimedLexTerm (seed cand : Quote) : ℚ :=
  let seedSet := (wordsOf seed.text).dedup
  let candSet := (wordsOf cand.text).dedup
  ((candSet.filter (fun w => seedSet.contains w)).length : ℚ) /
    (max seedSet.length candSet.length : ℚ) * 0.3

/-- The total score as claim C5 words it. -/
def claimedScore (neighbors : NeighborMap) (seed cand : Quote) (rnd : ℚ) : ℚ :=
  graphTerm neighbors seed cand + claimedLexTerm seed cand + noveltyTerm seed cand + rnd

def c5Seed : Quote := ⟨"s1".toList, "alpha beta".toList, none, none⟩

def c5Cand : Quote := ⟨"c1".toList, "alpha alpha gamma".toList, none, none⟩

/-- Counterexample to claim C5: the code counts candidate tokens with
multiplicity against `max(seed token-set size, candidate token-list length)`,
not token-set intersection against the larger token-set size: for seed text
"alpha beta" and candidate text "alpha alpha gamma" the code scores 0.2 while
the claimed formula gives 0.15 (all other terms zero, randomization pinned
at 0). -/
theorem c5_score_counterexample :
    rankScore [] c5Seed c5Cand 0 = 0.2 ∧ claimedScore [] c5Seed c5Cand 0 = 0.15 ∧
    rankScore [] c5Seed c5Cand 0 ≠ claimedScore [] c5Seed c5Cand 0 := by
  have hfil : (wordsOf c5Cand.text).filter (fun w => (wordsOf c5Seed.text).dedup.contains w)
      = ["alpha".toList, "alpha".toList] := by decide
  have hfil2 : (wordsOf c5Cand.text).dedup.filter
      (fun w => (wordsOf c5Seed.text).dedup.contains w) = ["alpha".toList] := by decide
  have hsl : (wordsOf c5Seed.text).dedup.length = 2 := by decide
  have hcl : (wordsOf c5Cand.text).length = 3 := by decide
  have hcd : (wordsOf c5Cand.text).dedup.length = 2 := by decide
  have hn : lookupNeighbors [] c5Seed.id = [] := by decide
  have h1 : rankScore [] c5Seed c5Cand 0 = 0.2 := by
    simp only [rankScore, hn, hfil, hsl, hcl, jsIndexOf]
    norm_num [c5Seed, c5Cand]
  have h2 : claimedScore [] c5Seed c5Cand 0 = 0.15 := by
    simp only [claimedScore, claimedLexTerm, graphTerm, noveltyTerm, hn, hfil2, hsl, hcd,
      jsIndexOf]
    norm_num [c5Seed, c5Cand]
  refine ⟨h1, h2, ?_⟩
  rw [h1, h2]
  norm_num

/-- Claim C5 (amended): the score is the sum of the graph term, the code's
lexical term (candidate-token multiplicity over max of seed token-set size
and candidate token-list length, times 0.3), the novelty terms, and the
randomization draw; and `rankCandidates` returns a permutation of its input
ordered by descending total score. -/
theorem c5_ranker (neighbors : NeighborMap) (rnd : Quote → ℚ) (cands : List Quote)
    (seed : Quote) :
    (∀ cand r, rankScore neighbors seed cand r =
      graphTerm neighbors seed cand + lexTerm seed cand + noveltyTerm seed cand + r) ∧
    (rankCandidates neighbors rnd cands seed).Perm cands ∧
    ((rankCandidates neighbors rnd cands seed).map
        (fun c => rankScore neighbors seed c (rnd c))).Sorted (fun a b => b ≤ a) := by
  refine ⟨fun cand r => ?_, ?_, ?_⟩
  · simp only [rankScore, graphTerm, lexTerm, noveltyTerm]
    by_cases h1 : jsIndexOf (lookupNeighbors neighbors seed.id) cand.id = -1 <;>
      by_cases h2 : cand.author ≠ seed.author <;>
        by_cases h3 : cand.book_title ≠ seed.book_title <;>
          simp [h1, h2, h3] <;> ring
  · have hperm := List.perm_insertionSort (fun a b : Quote × ℚ => b.2 ≤ a.2)
      (cands.map (fun c => (c, rankScore neighbors seed c (rnd c))))
    have := hperm.map Prod.fst
    simpa [rankCandidates, List.map_map, Function.comp_def] using this
  · haveI : IsTotal (Quote × ℚ) (fun a b => b.2 ≤ a.2) := ⟨fun a b => le_total b.2 a.2⟩
    haveI : IsTrans (Quote × ℚ) (fun a b => b.2 ≤ a.2) :=
      ⟨fun _ _ _ h1 h2 => le_trans h2 h1⟩
    have hsorted := List.sorted_insertionSort (fun a b : Quote × ℚ => b.2 ≤ a.2)
      (cands.map (fun c => (c, rankScore neighbors seed c (rnd c))))
    have hperm := List.perm_insertionSort (fun a b : Quote × ℚ => b.2 ≤ a.2)
      (cands.map (fun c => (c, rankScore neighbors seed c (rnd c))))
    have hmem : ∀ p ∈ ((cands.map (fun c => (c, rankScore neighbors seed c (rnd c)))).insertionSort
        (fun a b => b.2 ≤ a.2)), p.2 = rankScore neighbors seed p.1 (rnd p.1) := by
      intro p hp
      have : p ∈ cands.map (fun c => (c, rankScore neighbors seed c (rnd c))) :=
        hperm.mem_iff.1 hp
      obtain ⟨c, _, hc⟩ := List.mem_map.1 this
      rw [← hc]
    have hpw : ((cands.map (fun c => (c, rankScore neighbors seed c (rnd c)))).insertionSort
        (fun a b => b.2 ≤ a.2)).Pairwise
          (fun a b => rankScore neighbors seed b.1 (rnd b.1) ≤
            rankScore neighbors seed a.1 (rnd a.1)) := by
      refine List.Pairwise.imp_of_mem ?_ hsorted
      intro a b ha hb hr
      rw [← hmem a ha, ← hmem b hb]
      exact hr
    simp only [rankCandidates, List.map_map, List.Sorted, List.pairwise_map]
    exact hpw

/-- Witness for C5 (amended): all three parts are hypothesis-free, applied
here to a concrete two-candidate ranking. -/
theorem c5_ranker_witness :
    (rankCandidates [] (fun _ => 0) [c5Cand, c5Seed] c5Seed).Perm [c5Cand, c5Seed] ∧
    ((rankCandidates [] (fun _ => 0) [c5Cand, c5Seed] c5Seed).map
        (fun c => rankScore [] c5Seed c 0)).Sorted (fun a b => b ≤ a) := by
  have h := c5_ranker [] (fun _ => 0) [c5Cand, c5Seed] c5Seed
  exact ⟨h.2.1, h.2.2⟩

/-! ## Claim C9: route response path round-trips through the dash-joined key -/

theorem splitDash_ne_nil : ∀ cs : Str, splitDash cs ≠ []
  | [] => by simp [splitDash]
  | c :: rest => by
    simp only [splitDash]
    by_cases h : c = '-'
    · simp [h]
    · rw [if_neg h]
      cases hs : splitDash rest with
      | nil => simp
      | cons a t => simp

theorem splitDash_no_dash {x : Str} (h : '-' ∉ x) : splitDash x = [x] := by
  induction x with
  | nil => rfl
  | cons c rest ih =>
    have hc : ¬(c = '-') := fun e => h (by rw [← e]; exact List.mem_cons_self c rest)
    have hr : '-' ∉ rest := fun hm => h (List.mem_cons_of_mem _ hm)
    simp only [splitDash, if_neg hc, ih hr]

theorem splitDash_append (x rest : Str) (h : '-' ∉ x) :
    splitDash (x ++ '-' :: rest) = x :: splitDash rest := by
  induction x with
  | nil => simp [splitDash]
  | cons c x' ih =>
    have hc : ¬(c = '-') := fun e => h (by rw [← e]; exact List.mem_cons_self c x')
    have hx : '-' ∉ x' := fun hm => h (List.mem_cons_of_mem _ hm)
    simp only [List.cons_append, splitDash, List.append_eq, if_neg hc, ih hx]

theorem splitDash_joinDash : ∀ ids : List Str, ids ≠ [] → (∀ x ∈ ids, '-' ∉ x) →
    splitDash (joinDash ids) = ids
  | [], h, _ => absurd rfl h
  | [x], _, h => by
    simp only [joinDash]
    exact splitDash_no_dash (h x (by simp))
  | x :: y :: ys, _, h => by
    simp only [joinDash]
    rw [splitDash_append _ _ (h x (by simp)),
      splitDash_joinDash (y :: ys) (by simp) (fun z hz => h z (List.mem_cons_of_mem _ hz))]

theorem splitDash_length : ∀ cs : Str, (splitDash cs).length = cs.count '-' + 1
  | [] => by simp [splitDash]
  | c :: rest => by
    simp only [splitDash]
    by_cases h : c = '-'
    · rw [if_pos h]
      simp [splitDash_length rest, h, List.count_cons]
    · rw [if_neg h]
      cases hs : splitDash rest with
      | nil => exact absurd hs (splitDash_ne_nil rest)
      | cons a t =>
        have hl := splitDash_length rest
        rw [hs] at hl
        simp only [List.length_cons] at hl ⊢
        rw [List.count_cons]
        simp [h, hl]

theorem joinDash_count : ∀ ids : List Str, ids ≠ [] →
    (joinDash ids).count '-' = (ids.map (fun x => x.count '-')).sum + (ids.length - 1)
  | [], h => absurd rfl h
  | [x], _ => by simp [joinDash]
  | x :: y :: ys, _ => by
    have ih := joinDash_count (y :: ys) (by simp)
    simp only [joinDash] at ih ⊢
    rw [List.count_append, List.count_cons]
    simp only [List.map_cons, List.sum_cons, List.length_cons] at ih ⊢
    rw [ih]
    simp
    omega

theorem no_dash_of_splitDash_joinDash_eq (ids : List Str) (hne : ids ≠ [])
    (h : splitDash (joinDash ids) = ids) : ∀ x ∈ ids, '-' ∉ x := by
  have hlen := splitDash_length (joinDash ids)
  rw [h, joinDash_count ids hne] at hlen
  have hpos : 1 ≤ ids.length := List.length_pos.2 hne
  have hsum : (ids.map (fun x => x.count '-')).sum = 0 := by omega
  intro x hx
  have hz : x.count '-' = 0 :=
    List.sum_eq_zero_iff.1 hsum (x.count '-') (List.mem_map_of_mem _ hx)
  exact List.count_eq_zero.1 hz

theorem handleRouteLogic_ok_path (ai : AIOutcome Str) (now : Int) (st : ServerState)
    (path : List Quote) (sp : Option Str) (pathOut : List Str) (narr : Str)
    (h : (handleRouteLogic ai now st path sp).1 = RouteOutcome.ok pathOut narr) :
    path ≠ [] ∧ pathOut = splitDash (joinDash (path.map Quote.id)) := by
  by_cases hne : path = []
  · rw [hne] at h
    simp [handleRouteLogic] at h
  · refine ⟨hne, ?_⟩
    simp only [handleRouteLogic, if_neg hne] at h
    by_cases hrl : (checkRateLimit st.rateLimitStore (getClientId sp) now).1 = false
    · rw [if_pos hrl] at h
      exact absurd h (by simp)
    · rw [if_neg hrl] at h
      cases hgc : (getFromCache st.routeCache now
          (getCacheKey "route".toList (joinDash (path.map Quote.id)) sp)).1 with
      | some n0 =>
          simp only [hgc] at h
          cases h
          rfl
      | none =>
          simp only [hgc] at h
          cases ai with
          | ok n1 => cases h; rfl
          | httpError s => exact absurd h (by simp)
          | noApiKey => exact absurd h (by simp)

/-- Claim C9: whenever `handleRouteLogic` produces a response, its `path`
field equals the input quote ids exactly when no input id contains a dash:
the ids are dash-joined for the cache key and the response path is the
re-split of that key, so an id containing a dash comes back fragmented. -/
theorem c9_route_path (ai : AIOutcome Str) (now : Int) (st : ServerState)
    (path : List Quote) (sp : Option Str) (pathOut : List Str) (narr : Str)
    (h : (handleRouteLogic ai now st path sp).1 = RouteOutcome.ok pathOut narr) :
    pathOut = path.map Quote.id ↔ ∀ q ∈ path, '-' ∉ q.id := by
  obtain ⟨hne, hout⟩ := handleRouteLogic_ok_path ai now st path sp pathOut narr h
  subst hout
  have hids : path.map Quote.id ≠ [] := by
    simpa using hne
  constructor
  · intro heq q hq
    exact no_dash_of_splitDash_joinDash_eq (path.map Quote.id) hids heq q.id
      (List.mem_map_of_mem _ hq)
  · intro hnd
    refine splitDash_joinDash _ hids (fun x hx => ?_)
    obtain ⟨q, hq, rfl⟩ := List.mem_map.1 hx
    exact hnd q hq

def c9Quote : Quote := ⟨"q1".toList, "t".toList, none, none⟩

def c9QuoteDash : Quote := ⟨"a-b".toList, "t".toList, none, none⟩

/-- Witness for C9: a concrete route request over a dash-free id keeps its
path intact, and one over the id `a-b` has it fragmented into `a`, `b`. -/
theorem c9_route_path_witness :
    (["q1".toList] = [c9Quote].map Quote.id ↔ ∀ q ∈ [c9Quote], '-' ∉ q.id) ∧
    (["a".toList, "b".toList] = [c9QuoteDash].map Quote.id ↔
      ∀ q ∈ [c9QuoteDash], '-' ∉ q.id) := by
  constructor
  · exact c9_route_path (.ok "n".toList) 0 ⟨[], [], []⟩ [c9Quote] none
      ["q1".toList] "n".toList (by decide)
  · exact c9_route_path (.ok "n".toList) 0 ⟨[], [], []⟩ [c9QuoteDash] none
      ["a".toList, "b".toList] "n".toList (by decide)

end Mapkeeper
